import Mathlib

/-!
Shallow embedding of the Etherscan connector of crypto-exporter
(`src/exporter/connectors/etherscan_connector.py` together with the base
class in `src/exporter/connectors/connector.py`): the retry loop
`__load_retry`, the token normalizer `_get_token_balance_on_account`, and
the balance aggregation `retrieve_accounts` / `retrieve_tokens`, with
proofs about the specified properties.  Machine reals (Python floats) are
modelled as exact rationals; exceptions are modelled with `Except`.
-/

namespace CryptoExporter

/-- Equality of `Except` values is decidable when it is on both sides. -/
instance {ε α : Type} [DecidableEq ε] [DecidableEq α] : DecidableEq (Except ε α) :=
  fun a b =>
    match a, b with
    | .error e, .error f =>
      if h : e = f then .isTrue (by rw [h])
      else .isFalse (by intro hh; injection hh; exact h (by assumption))
    | .ok x, .ok y =>
      if h : x = y then .isTrue (by rw [h])
      else .isFalse (by intro hh; injection hh; exact h (by assumption))
    | .error _, .ok _ => .isFalse (by intro hh; exact Except.noConfusion hh)
    | .ok _, .error _ => .isFalse (by intro hh; exact Except.noConfusion hh)

/-- Whether the first character list starts the second. -/
def strPref : List Char → List Char → Bool
  | [], _ => true
  | _ :: _, [] => false
  | a :: as, b :: bs => a == b && strPref as bs

/-- Whether the first character list occurs inside the second. -/
def strHasSub (pat : List Char) : List Char → Bool
  | [] => pat.isEmpty
  | c :: rest => strPref pat (c :: rest) || strHasSub pat rest

/-- Python substring test `pat in s`. -/
def pyIn (pat s : String) : Bool := strHasSub pat.data s.data

/-- One entry of a `balancemulti` result list, a dict with keys `account`
and `balance`; the balance is the integer denoted by the decimal string on
the wire. -/
structure AccEntry where
  account : String
  balance : Int
deriving DecidableEq, Repr

/-- The `result` field of a response document: either a string (as in
`tokenbalance` responses and error reports) or a list of per-account
entries (as in `balancemulti` responses). -/
inductive RVal where
  | rstr (s : String)
  | rlist (es : List AccEntry)
deriving DecidableEq, Repr

/-- A JSON response document as far as the connector inspects it: an
optional `message` string, an optional `result`, and a flag recording
whether the dict has further keys, which only matters for its Python
truthiness. -/
structure ApiDoc where
  message : Option String := none
  result : Option RVal := none
  extra : Bool := false
deriving DecidableEq, Repr

/-- Python truthiness of the response dict: non-empty. -/
def ApiDoc.truthy (d : ApiDoc) : Bool := d.message.isSome || d.result.isSome || d.extra

/-- Python truthiness of the value of a `result` field. -/
def rTruthy : Option RVal → Bool
  | none => false
  | some (.rstr s) => decide (s ≠ "")
  | some (.rlist es) => decide (es ≠ [])

/-- What one network attempt does: `requests.get(...).json()` either raises
a transport error (ConnectionError / ReadTimeout) or yields a document. -/
inductive Attempt where
  | transportError
  | response (d : ApiDoc)
deriving DecidableEq, Repr

/-- The observable events of one `__load_retry` call: a network attempt, a
one-second backoff sleep, and the max-retries warning. -/
inductive LEvent where
  | netCall
  | sleep1
  | gaveUp
deriving DecidableEq, Repr

/-- The value of the local variable `data` when `__load_retry` returns, or
the exception the call lets escape. -/
inductive LoadRes where
  | pynone
  | pydoc (d : ApiDoc)
  | pyres (r : RVal)
  | raised (e : String)
deriving DecidableEq, Repr

/-- Everything one `__load_retry` call produces: the returned `data`, the
number of network attempts, the number of loop iterations, the event
trace, the `enable_authentication` flag after the call, and whether the
modelling fuel sufficed (`loadRetry` always supplies enough, see
`go_bound`). -/
structure LoadOutcome where
  data : LoadRes
  attempts : Nat
  iterations : Nat
  trace : List LEvent
  enableAuthentication : Bool
  fuelOk : Bool
deriving DecidableEq, Repr

/-- One run of the `while retry` loop of `__load_retry`.  The local `data`
is `None` at the top of every iteration — it starts as `None`, a transport
error leaves it untouched, and the NOTOK branch resets it to `None` before
looping — so it is not a parameter.  `resp k` is the behaviour of the
`k`-th network attempt (0-based); `count` is the value of the counter
before the `count += 1` of the iteration. -/
def go (resp : Nat → Attempt) (retries : Nat) :
    Nat → Nat → Nat → Bool → List LEvent → Nat → LoadOutcome
  | 0, _, attempts, auth, trace, iters =>
    ⟨.pynone, attempts, iters, trace.reverse, auth, false⟩
  | fuel + 1, count, attempts, auth, trace, iters =>
    if retries < count + 1 then
      ⟨.pynone, attempts, iters + 1, (LEvent.gaveUp :: trace).reverse, auth, true⟩
    else
      match resp attempts with
      | .transportError =>
        go resp retries fuel (count + 1) (attempts + 1) auth
          (.sleep1 :: .netCall :: trace) (iters + 1)
      | .response d =>
        if d.truthy then
          match d.message with
          | none =>
            ⟨.raised "TypeError", attempts + 1, iters + 1,
              (LEvent.netCall :: trace).reverse, auth, true⟩
          | some m =>
            if pyIn "NOTOK" m then
              if d.result = some (.rstr "Invalid API Key") then
                ⟨.pynone, attempts + 1, iters + 1,
                  (LEvent.sleep1 :: LEvent.netCall :: trace).reverse, false, true⟩
              else
                go resp retries fuel (count + 1) (attempts + 1) auth
                  (.sleep1 :: .netCall :: trace) (iters + 1)
            else
              match d.result with
              | some r =>
                if (m = "OK" || pyIn "OK-" m) && rTruthy (some r) then
                  ⟨.pyres r, attempts + 1, iters + 1,
                    (LEvent.netCall :: trace).reverse, auth, true⟩
                else
                  ⟨.pydoc d, attempts + 1, iters + 1,
                    (LEvent.netCall :: trace).reverse, auth, true⟩
              | none =>
                ⟨.pydoc d, attempts + 1, iters + 1,
                  (LEvent.netCall :: trace).reverse, auth, true⟩
        else
          ⟨.pydoc d, attempts + 1, iters + 1,
            (LEvent.netCall :: trace).reverse, auth, true⟩

/-- `__load_retry(request_data, retries)` given the ambient
`enable_authentication` flag and the behaviour of each network attempt.
At most `retries + 1` iterations can run, so `(retries + 1) + 1` fuel is
always enough. -/
def loadRetry (auth : Bool) (resp : Nat → Attempt) (retries : Nat) : LoadOutcome :=
  go resp retries ((retries + 1) + 1) 0 0 auth [] 0

example :
    loadRetry true (fun _ => .transportError) 5 =
      ⟨.pynone, 5, 6,
        [.netCall, .sleep1, .netCall, .sleep1, .netCall, .sleep1, .netCall, .sleep1,
          .netCall, .sleep1, .gaveUp], true, true⟩ := by decide

example :
    loadRetry true
      (fun _ => .response ⟨some "OK", some (.rlist [⟨"0xA", 7⟩]), false⟩) 5 =
      ⟨.pyres (.rlist [⟨"0xA", 7⟩]), 1, 1, [.netCall], true, true⟩ := by decide

example :
    loadRetry true
      (fun _ => .response ⟨some "NOTOK", some (.rstr "Invalid API Key"), false⟩) 5 =
      ⟨.pynone, 1, 1, [.netCall, .sleep1], false, true⟩ := by decide

example :
    (loadRetry true (fun _ => .response ⟨none, none, true⟩) 5).data =
      .raised "TypeError" := by decide

example :
    loadRetry true (fun _ => .response ⟨some "OK", some (.rstr ""), false⟩) 5 =
      ⟨.pydoc ⟨some "OK", some (.rstr ""), false⟩, 1, 1, [.netCall], true, true⟩ := by
  decide

/-- A configured token, a dict with keys `contract`, `decimals` (possibly
absent) and `short`. -/
structure Token where
  contract : String
  decimals : Option Int
  short : String
deriving DecidableEq, Repr

/-- `self.settings` of an EtherscanConnector, as built by `__init__`. -/
structure Settings where
  apiKey : Option String
  url : String
  addresses : Option (List String)
  tokens : Option (List Token)
  enableAuthentication : Bool
deriving DecidableEq, Repr

/-- `EtherscanConnector.__init__(**kwargs)`: builds `self.settings` and
raises ValueError when `api_key` is missing or falsy. -/
def mkEtherscanConnector (apiKey : Option String) (url : Option String)
    (addresses : Option (List String)) (tokens : Option (List Token)) :
    Except String Settings :=
  let s : Settings :=
    { apiKey := apiKey
      url := url.getD "https://api.etherscan.io/api"
      addresses := addresses
      tokens := tokens
      enableAuthentication := true }
  if s.apiKey.getD "" = "" then .error "Missing api_key" else .ok s

/-- The request a call sends, up to the fixed fields merged in on every
attempt (the api key, `module=account`, `tag=latest`). -/
inductive Request where
  | balancemulti (address : Option (List String))
  | tokenbalance (contractaddress : String) (address : String)
deriving DecidableEq, Repr

/-- The network: the behaviour of the `k`-th attempt of a given request. -/
def Oracle := Request → Nat → Attempt

/-- First-match lookup in an association list, i.e. `d.get(k)` on a dict
whose keys are unique. -/
def alookup {α : Type} : List (String × α) → String → Option α
  | [], _ => none
  | (k', v) :: t, k => if k' = k then some v else alookup t k

/-- Python `d[k] = v` on an insertion-ordered dict: replace the value in
place if the key exists, append otherwise. -/
def upsert {α : Type} : List (String × α) → String → α → List (String × α)
  | [], k, v => [(k, v)]
  | (k', v') :: t, k, v => if k' = k then (k, v) :: t else (k', v') :: upsert t k v

/-- The balance table `self._accounts`: asset symbol to account to value. -/
abbrev Table := List (String × List (String × ℚ))

/-- Python truthiness of `self._accounts.get(sym)`: present and non-empty. -/
def subTruthy : Option (List (String × ℚ)) → Bool
  | none => false
  | some m => !m.isEmpty

/-- The table entry for a (symbol, account) pair, if any. -/
def lookup2 (tbl : Table) (sym a : String) : Option ℚ :=
  match alookup tbl sym with
  | none => none
  | some sub => alookup sub a

/-- The recurring idiom `if not self._accounts.get(sym):
self._accounts.update(sym maps to empty)`. -/
def ensureSym (tbl : Table) (sym : String) : Table :=
  if subTruthy (alookup tbl sym) then tbl else upsert tbl sym []

/-- `self._accounts[sym].update(a maps to v)`.  Callers run `ensureSym`
first, so the symbol is present. -/
def writeBal (tbl : Table) (sym a : String) (v : ℚ) : Table :=
  upsert tbl sym (upsert ((alookup tbl sym).getD []) a v)

/-- Accumulates the value of a decimal digit run; any non-digit character
makes the parse fail. -/
def digitsVal : List Char → Nat → Option Nat
  | [], acc => some acc
  | c :: cs, acc =>
    if c.isDigit then digitsVal cs (acc * 10 + (c.toNat - 48)) else none

/-- Python `int(s)` on a decimal string: an optional minus sign followed by
at least one digit (surrounding whitespace, underscores and an explicit
plus sign are not modelled; the wire payloads are plain digit runs). -/
def pyInt (s : String) : Option Int :=
  match s.data with
  | [] => none
  | '-' :: cs =>
    match cs with
    | [] => none
    | _ => (digitsVal cs 0).map fun n => -(n : Int)
  | cs => (digitsVal cs 0).map fun n => (n : Int)

/-- The body of `_get_token_balance_on_account` after `__load_retry` has
returned `data`: balance is 0 unless `data` is truthy and `int(data)` is
positive, in which case the integer is scaled by the token's decimals
(default 18, returned unscaled when decimals is 0); the result is
`float(balance)`.  `int` of a dict or a list raises TypeError, `int` of a
non-numeric string raises ValueError, and an exception escaping
`__load_retry` propagates. -/
def tokBalance (data : LoadRes) (token : Token) : Except String ℚ :=
  match data with
  | .raised e => .error e
  | .pynone => .ok 0
  | .pydoc d => if d.truthy then .error "TypeError" else .ok 0
  | .pyres (.rlist es) => if es.isEmpty then .ok 0 else .error "TypeError"
  | .pyres (.rstr s) =>
    if s = "" then .ok 0
    else
      match pyInt s with
      | none => .error "ValueError"
      | some n =>
        if 0 < n then
          let decimals : Int :=
            if 0 ≤ token.decimals.getD (-1) then token.decimals.getD (-1) else 18
          .ok (if 0 < decimals then (n : ℚ) / 10 ^ decimals.toNat else (n : ℚ))
        else .ok 0

/-- What one token call produces: the balance, the authentication flag
after the call and the number of network attempts made. -/
structure TokenCallResult where
  balance : ℚ
  enableAuthentication : Bool
  attempts : Nat
deriving DecidableEq, Repr

/-- What one aggregation run produces: the settings after the run, the
balance table and the total number of network attempts made. -/
structure RunResult where
  settings : Settings
  accounts : Table
  attempts : Nat
deriving DecidableEq, Repr

/-- `_get_token_balance_on_account(account, token)`: one `tokenbalance`
request through `__load_retry`, then normalization. -/
def getTokenBalanceOnAccount (oracle : Oracle) (s : Settings) (account : String)
    (token : Token) : Except String TokenCallResult :=
  let out := loadRetry s.enableAuthentication
    (oracle (.tokenbalance token.contract account)) 5
  match tokBalance out.data token with
  | .error e => .error e
  | .ok q => .ok ⟨q, out.enableAuthentication, out.attempts⟩

/-- The inner loop of `retrieve_tokens`, `for token in self.settings
tokens`, for one account: ensure the token's dict exists, then write the
balance the token call produced. -/
def tokensLoop (oracle : Oracle) (account : String) :
    List Token → Settings → Table → Nat → Except String RunResult
  | [], s, tbl, n => .ok ⟨s, tbl, n⟩
  | token :: ts, s, tbl, n =>
    let tbl' := ensureSym tbl token.short
    match getTokenBalanceOnAccount oracle s account token with
    | .error e => .error e
    | .ok r =>
      tokensLoop oracle account ts { s with enableAuthentication := r.enableAuthentication }
        (writeBal tbl' token.short account r.balance) (n + r.attempts)

/-- The outer loop of `retrieve_tokens`, `for account in
self._accounts['ETH']`.  Iterating a `tokens` setting of None raises, but
only once the inner loop is reached. -/
def accountsLoop (oracle : Oracle) :
    List String → Settings → Table → Nat → Except String RunResult
  | [], s, tbl, n => .ok ⟨s, tbl, n⟩
  | a :: rest, s, tbl, n =>
    match s.tokens with
    | none => .error "TypeError"
    | some ts =>
      match tokensLoop oracle a ts s tbl n with
      | .error e => .error e
      | .ok r => accountsLoop oracle rest r.settings r.accounts r.attempts

/-- `retrieve_tokens()`: ensure the ETH dict, then one token call per
(account, token) pair, accounts outermost. -/
def retrieveTokens (oracle : Oracle) (s : Settings) (tbl : Table) :
    Except String RunResult :=
  let tbl' := ensureSym tbl "ETH"
  accountsLoop oracle (((alookup tbl' "ETH").getD []).map Prod.fst) s tbl' 0

/-- One iteration of the loop `for account in data` of `retrieve_accounts`:
write the entry's balance divided by the 10^18 literal into the ETH dict. -/
def natOne (t : Table) (e : AccEntry) : Table :=
  writeBal t "ETH" e.account ((e.balance : ℚ) / 1000000000000000000)

/-- The native-balance write of `retrieve_accounts`: when `data` is truthy,
ensure the ETH dict and write every returned entry scaled by 10^18.
Iterating a truthy non-list `data` and indexing its elements raises. -/
def nativeWrite (tbl : Table) (data : LoadRes) : Except String Table :=
  match data with
  | .raised e => .error e
  | .pynone => .ok tbl
  | .pydoc d => if d.truthy then .error "TypeError" else .ok tbl
  | .pyres (.rstr s) => if s = "" then .ok tbl else .error "TypeError"
  | .pyres (.rlist es) =>
    if es.isEmpty then .ok tbl
    else .ok (es.foldl natOne (ensureSym tbl "ETH"))

/-- `retrieve_accounts()`: if authentication is enabled, one `balancemulti`
call, the native write, then `retrieve_tokens` when tokens are configured;
otherwise nothing.  Returns the settings after the call, the table, and the
total number of network attempts. -/
def retrieveAccounts (oracle : Oracle) (s : Settings) (tbl : Table) :
    Except String RunResult :=
  if s.enableAuthentication then
    let out := loadRetry s.enableAuthentication (oracle (.balancemulti s.addresses)) 5
    let s' := { s with enableAuthentication := out.enableAuthentication }
    match nativeWrite tbl out.data with
    | .error e => .error e
    | .ok tbl' =>
      match s'.tokens with
      | none => .ok ⟨s', tbl', out.attempts⟩
      | some ts =>
        if ts.isEmpty then .ok ⟨s', tbl', out.attempts⟩
        else
          match retrieveTokens oracle s' tbl' with
          | .error e => .error e
          | .ok r => .ok ⟨r.settings, r.accounts, out.attempts + r.attempts⟩
  else .ok ⟨s, tbl, 0⟩

/-- `Connector.get_accounts()`. -/
def getAccounts (accounts : Table) : Table := accounts

/-- Two EtherscanConnector instances in one process.  In `connector.py`,
`_accounts` is a class attribute of `Connector`, and `EtherscanConnector`
never assigns `self._accounts` — it only calls `.update` on it — so every
instance reads and mutates the single class-level dict, modelled here as
the one field `classAccounts`.  `self.settings` is assigned in `__init__`,
so it is per-instance. -/
structure TwoConnectors where
  classAccounts : Table
  settingsA : Settings
  settingsB : Settings
deriving DecidableEq, Repr

def TwoConnectors.getAccountsA (w : TwoConnectors) : Table :=
  getAccounts w.classAccounts

def TwoConnectors.getAccountsB (w : TwoConnectors) : Table :=
  getAccounts w.classAccounts

/-- `A.retrieve_accounts()` in the two-instance process. -/
def TwoConnectors.retrieveAccountsA (oracle : Oracle) (w : TwoConnectors) :
    Except String TwoConnectors :=
  match retrieveAccounts oracle w.settingsA w.classAccounts with
  | .error e => .error e
  | .ok r => .ok ⟨r.accounts, r.settings, w.settingsB⟩

/-- The value `_get_token_balance_on_account` computes once `int(data)`
has yielded the integer n (the Ok branch of `tokBalance`). -/
def tokVal (token : Token) (n : Int) : ℚ :=
  if 0 < n then
    let decimals : Int :=
      if 0 ≤ token.decimals.getD (-1) then token.decimals.getD (-1) else 18
    if 0 < decimals then (n : ℚ) / 10 ^ decimals.toNat else (n : ℚ)
  else 0

/-- The table transformation of the inner `retrieve_tokens` loop for one
account, when every token call yields the value `valOf`. -/
def tsWrite (a : String) (valOf : Token → ℚ) : List Token → Table → Table
  | [], tbl => tbl
  | t :: ts, tbl =>
    tsWrite a valOf ts (writeBal (ensureSym tbl t.short) t.short a (valOf t))

/-- The table transformation of the outer `retrieve_tokens` loop, when the
token call for (t, a) yields the value `valOf t a`. -/
def acWrite (valOf : Token → String → ℚ) (ts : List Token) :
    List String → Table → Table
  | [], tbl => tbl
  | a :: rest, tbl => acWrite valOf ts rest (tsWrite a (fun t => valOf t a) ts tbl)

/-- The table after one full `retrieve_accounts` run whose balancemulti
call succeeds with the entries `es` and whose token call for (t, a)
yields the value `valOf t a`. -/
def runTable (valOf : Token → String → ℚ) (ts : List Token) (es : List AccEntry)
    (tbl : Table) : Table :=
  let tblA := es.foldl natOne (ensureSym tbl "ETH")
  if ts.isEmpty then tblA
  else
    let tblB := ensureSym tblA "ETH"
    acWrite valOf ts (((alookup tblB "ETH").getD []).map Prod.fst) tblB


/-! Concrete documents, settings and oracles used in counterexamples and
witnesses. -/

/-- A success response whose result is a string. -/
def okDocStr (s : String) : ApiDoc := ⟨some "OK", some (.rstr s), false⟩

/-- A success response whose result is a list of account entries. -/
def okDocList (es : List AccEntry) : ApiDoc := ⟨some "OK", some (.rlist es), false⟩

/-- The authentication-failure response. -/
def authFailDoc : ApiDoc := ⟨some "NOTOK", some (.rstr "Invalid API Key"), false⟩

/-- A truthy document without a `message` key. -/
def noMessageDoc : ApiDoc := ⟨none, none, true⟩

/-- A well-formed document with message OK but an empty result. -/
def okEmptyDoc : ApiDoc := ⟨some "OK", some (.rstr ""), false⟩

def sampleSettings : Settings :=
  ⟨some "key", "https://api.etherscan.io/api", some ["0xA"], none, true⟩

def tokUSDC : Token := ⟨"0xT", some 6, "USDC"⟩

def tokTKB : Token := ⟨"0xU", some 6, "TKB"⟩

/-- Settings with one configured token, for the C1 counterexample. -/
def c1Settings : Settings :=
  ⟨some "key", "https://api.etherscan.io/api", some ["0xA"], some [tokUSDC], true⟩

/-- Settings with two accounts and two tokens, for the isolation scenario. -/
def c1Settings2 : Settings :=
  ⟨some "key", "https://api.etherscan.io/api", some ["0xA", "0xB"],
    some [tokUSDC, tokTKB], true⟩

/-- The isolation-scenario network: the (USDC, 0xA) and (TKB, 0xB) token
calls succeed, every other request always fails at transport level. -/
def c1Oracle : Oracle := fun req _ =>
  match req with
  | .tokenbalance "0xT" "0xA" => .response (okDocStr "5000000")
  | .tokenbalance "0xU" "0xB" => .response (okDocStr "7000000")
  | _ => .transportError

def c3SettingsA : Settings :=
  ⟨some "keyA", "https://api.etherscan.io/api", some ["0xA"], none, true⟩

def c3SettingsB : Settings :=
  ⟨some "keyB", "https://api.etherscan.io/api", some ["0xB"], none, true⟩

/-- A fresh process with two connector instances and the class-level
`_accounts` dict still empty. -/
def c3World : TwoConnectors := ⟨[], c3SettingsA, c3SettingsB⟩

/-- A network on which every `balancemulti` call succeeds. -/
def c3Oracle : Oracle := fun req _ =>
  match req with
  | .balancemulti _ => .response (okDocList [⟨"0xA", 3000000000000000000⟩])
  | _ => .transportError

/-- An always-success network: every balancemulti attempt returns one
fixed entry, every token attempt the fixed amount 5000000. -/
def c9Oracle : Oracle := fun req _ =>
  match req with
  | .balancemulti _ => .response (okDocList [⟨"0xA", 2000000000000000000⟩])
  | .tokenbalance _ _ => .response (okDocStr "5000000")

/-- A document whose message contains both NOTOK and the substring OK-,
with a non-empty result that is not the invalid-key marker. -/
def notokDashDoc : ApiDoc :=
  ⟨some "NOTOK-x", some (.rlist [⟨"0xA", 2000000000000000000⟩]), false⟩

section Lemmas

/-! General lemmas about the retry loop. -/

/-- The loop body consumes one unit of fuel per iteration, and the fuel
`loadRetry` supplies is enough: within the budget the fuel marker stays
set and at most `retries + 1 - count` further iterations run. -/
theorem go_bound (resp : Nat → Attempt) (retries : Nat) :
    ∀ (fuel count attempts : Nat) (auth : Bool) (trace : List LEvent) (iters : Nat),
      count ≤ retries → retries < count + fuel →
      (go resp retries fuel count attempts auth trace iters).fuelOk = true ∧
      (go resp retries fuel count attempts auth trace iters).iterations ≤
        iters + (retries + 1 - count) := by
  intro fuel
  induction fuel with
  | zero => intro count attempts auth trace iters h1 h2; omega
  | succ fuel ih =>
    intro count attempts auth trace iters h1 h2
    by_cases hc : retries < count + 1
    · constructor <;> simp [go, hc] <;> omega
    · simp only [go, if_neg hc]
      cases hresp : resp attempts with
      | transportError =>
        dsimp only
        obtain ⟨hA, hB⟩ := ih (count + 1) (attempts + 1) auth
          (.sleep1 :: .netCall :: trace) (iters + 1) (by omega) (by omega)
        exact ⟨hA, by omega⟩
      | response d =>
        by_cases ht : d.truthy
        · simp only [ht, if_true]
          cases hm : d.message with
          | none => constructor <;> simp <;> omega
          | some m =>
            by_cases hn : pyIn "NOTOK" m
            · simp only [hn, if_true]
              by_cases hk : d.result = some (.rstr "Invalid API Key")
              · constructor <;> simp [hk] <;> omega
              · simp only [if_neg hk]
                obtain ⟨hA, hB⟩ := ih (count + 1) (attempts + 1) auth
                  (.sleep1 :: .netCall :: trace) (iters + 1) (by omega) (by omega)
                exact ⟨hA, by omega⟩
            · simp only [hn, if_false]
              cases hr : d.result with
              | none => constructor <;> simp <;> omega
              | some r =>
                by_cases hs : ((m = "OK" || pyIn "OK-" m) && rTruthy (some r)) = true
                · constructor <;> simp [hs] <;> omega
                · constructor <;> simp [hs] <;> omega
        · simp only [ht, if_false]
          constructor <;> simp <;> omega

/-! Lemmas about the dict operations. -/

theorem alookup_upsert {α : Type} (m : List (String × α)) (k k' : String) (v : α) :
    alookup (upsert m k v) k' = if k = k' then some v else alookup m k' := by
  induction m with
  | nil => simp [upsert, alookup]
  | cons p t ih =>
    obtain ⟨a, b⟩ := p
    simp only [upsert]
    by_cases hak : a = k
    · subst hak
      simp only [if_pos rfl, alookup]
      by_cases hkk : a = k'
      · simp [hkk]
      · simp [hkk]
    · simp only [if_neg hak, alookup]
      by_cases hak' : a = k'
      · have hkk : ¬ k = k' := fun h => hak (h ▸ hak')
        simp [hak', hkk]
      · simp [hak', ih]

theorem upsert_id {α : Type} (m : List (String × α)) (k : String) (v : α)
    (h : alookup m k = some v) : upsert m k v = m := by
  induction m with
  | nil => exact Option.noConfusion h
  | cons p t ih =>
    obtain ⟨a, b⟩ := p
    by_cases hak : a = k
    · subst hak
      have hba : alookup ((a, b) :: t) a = some b := by simp [alookup]
      rw [hba] at h
      injection h with hbv
      simp [upsert, hbv]
    · simp only [alookup, if_neg hak] at h
      simp [upsert, hak, ih h]

theorem keys_upsert {α : Type} (m : List (String × α)) (k : String) (v : α) :
    (upsert m k v).map Prod.fst =
      if (alookup m k).isSome then m.map Prod.fst else m.map Prod.fst ++ [k] := by
  induction m with
  | nil => simp [upsert, alookup]
  | cons p t ih =>
    obtain ⟨a, b⟩ := p
    by_cases hak : a = k
    · subst hak
      simp [upsert, alookup]
    · simp [upsert, alookup, hak, ih]
      split <;> simp

theorem alookup_writeBal_ne (tbl : Table) (sym a sym' : String) (v : ℚ)
    (h : sym ≠ sym') :
    alookup (writeBal tbl sym a v) sym' = alookup tbl sym' := by
  simp [writeBal, alookup_upsert, h]

theorem lookup2_writeBal (tbl : Table) (sym a a' : String) (v : ℚ) :
    lookup2 (writeBal tbl sym a v) sym a' =
      if a = a' then some v else lookup2 tbl sym a' := by
  unfold lookup2 writeBal
  rw [alookup_upsert, if_pos rfl]
  dsimp only
  rw [alookup_upsert]
  cases h : alookup tbl sym with
  | none => simp [alookup]
  | some sub => simp

theorem alookup_ensureSym_ne (tbl : Table) (sym sym' : String) (h : sym ≠ sym') :
    alookup (ensureSym tbl sym) sym' = alookup tbl sym' := by
  unfold ensureSym
  split
  · rfl
  · rw [alookup_upsert, if_neg h]

theorem lookup2_ensureSym (tbl : Table) (sym a : String) :
    lookup2 (ensureSym tbl sym) sym a = lookup2 tbl sym a := by
  unfold ensureSym
  split
  · rfl
  · rename_i hfalse
    simp only [lookup2, alookup_upsert, if_pos rfl]
    cases h : alookup tbl sym with
    | none => simp [alookup]
    | some sub =>
      cases sub with
      | nil => simp [alookup]
      | cons x xs => simp [subTruthy, h] at hfalse

theorem subTruthy_of_lookup2 (tbl : Table) (sym a : String) (v : ℚ)
    (h : lookup2 tbl sym a = some v) : subTruthy (alookup tbl sym) = true := by
  unfold lookup2 at h
  cases hs : alookup tbl sym with
  | none => rw [hs] at h; exact Option.noConfusion h
  | some sub =>
    rw [hs] at h
    cases sub with
    | nil => exact Option.noConfusion h
    | cons x xs => simp [subTruthy]

/-! Lemmas about the native write fold of `retrieve_accounts`. -/

theorem natFold_alookup_ne (es : List AccEntry) (t : Table) (sym : String)
    (h : sym ≠ "ETH") :
    alookup (es.foldl natOne t) sym = alookup t sym := by
  induction es generalizing t with
  | nil => rfl
  | cons e es ih =>
    rw [List.foldl_cons, ih, natOne, alookup_writeBal_ne _ _ _ _ _ (Ne.symm h)]

theorem natFold_lookup2_notmem (es : List AccEntry) (t : Table) (a : String)
    (h : a ∉ es.map AccEntry.account) :
    lookup2 (es.foldl natOne t) "ETH" a = lookup2 t "ETH" a := by
  induction es generalizing t with
  | nil => rfl
  | cons e es ih =>
    simp only [List.map_cons, List.mem_cons, not_or] at h
    rw [List.foldl_cons, ih _ h.2, natOne, lookup2_writeBal, if_neg (Ne.symm h.1)]

theorem natFold_lookup2_mem (es : List AccEntry) (t : Table)
    (hnd : (es.map AccEntry.account).Nodup) (e : AccEntry) (he : e ∈ es) :
    lookup2 (es.foldl natOne t) "ETH" e.account =
      some ((e.balance : ℚ) / 1000000000000000000) := by
  induction es generalizing t with
  | nil => cases he
  | cons x xs ih =>
    simp only [List.map_cons, List.nodup_cons] at hnd
    rcases List.mem_cons.mp he with hex | hex
    · subst hex
      rw [List.foldl_cons, natFold_lookup2_notmem _ _ _ hnd.1, natOne,
        lookup2_writeBal, if_pos rfl]
    · rw [List.foldl_cons]
      exact ih _ hnd.2 hex

/-- When the first attempt yields a success document — truthy, message
present without NOTOK, message OK or containing OK-, truthy result — the
loop extracts the result field and returns after exactly one attempt,
leaving the authentication flag alone. -/
theorem loadRetry_first_success (auth : Bool) (resp : Nat → Attempt) (retries : Nat)
    (d : ApiDoc) (m : String) (r : RVal)
    (hr1 : 1 ≤ retries) (h0 : resp 0 = .response d) (hm : d.message = some m)
    (hnotok : pyIn "NOTOK" m = false)
    (hok : (decide (m = "OK") || pyIn "OK-" m) = true)
    (hres : d.result = some r) (hrt : rTruthy (some r) = true) :
    loadRetry auth resp retries = ⟨.pyres r, 1, 1, [.netCall], auth, true⟩ := by
  have ht : d.truthy = true := by simp [ApiDoc.truthy, hres]
  have hlt : ¬ (retries < 0 + 1) := by omega
  simp only [loadRetry, go, if_neg hlt, h0, ht, if_true, hm, hnotok,
    Bool.false_eq_true, if_false, hres, hok, hrt, Bool.and_self,
    List.reverse_cons, List.reverse_nil, List.nil_append]

/-! Lemmas towards idempotence of `retrieve_accounts`: a second run over a
table that already holds the values a fixed set of success payloads
produces writes only what is already there. -/

/-- An integer-denoting string is not empty. -/
theorem toIntSome_ne_empty (str : String) (n : Int) (hs : pyInt str = some n) :
    str ≠ "" := by
  intro h
  subst h
  exact Option.noConfusion hs

theorem ensureSym_of_truthy (tbl : Table) (sym : String)
    (h : subTruthy (alookup tbl sym) = true) : ensureSym tbl sym = tbl := by
  unfold ensureSym
  rw [if_pos h]

theorem lookup2_congr (t1 t2 : Table) (sym a : String)
    (h : alookup t1 sym = alookup t2 sym) : lookup2 t1 sym a = lookup2 t2 sym a := by
  unfold lookup2
  rw [h]

theorem writeBal_id (tbl : Table) (sym a : String) (v : ℚ)
    (h : lookup2 tbl sym a = some v) : writeBal tbl sym a v = tbl := by
  unfold lookup2 at h
  cases hs : alookup tbl sym with
  | none => rw [hs] at h; exact Option.noConfusion h
  | some sub =>
    rw [hs] at h
    unfold writeBal
    rw [hs]
    dsimp only [Option.getD]
    rw [upsert_id sub a v h, upsert_id tbl sym sub hs]

theorem natFold_id (es : List AccEntry) (tbl : Table)
    (h : ∀ e ∈ es, lookup2 tbl "ETH" e.account =
      some ((e.balance : ℚ) / 1000000000000000000)) :
    es.foldl natOne tbl = tbl := by
  induction es with
  | nil => rfl
  | cons e es ih =>
    rw [List.foldl_cons, natOne, writeBal_id _ _ _ _ (h e (List.mem_cons_self e es)),
      ih fun x hx => h x (List.mem_cons_of_mem e hx)]

theorem tokBalance_ok (str : String) (n : Int) (tok : Token)
    (hne : str ≠ "") (hp : pyInt str = some n) :
    tokBalance (.pyres (.rstr str)) tok = .ok (tokVal tok n) := by
  simp only [tokBalance, hne, if_false, hp, tokVal]
  split <;> rfl

/-- A token call whose network attempt always yields the same parseable
success payload returns the normalized value after one attempt, leaving
the authentication flag alone. -/
theorem getTok_const (oracle : Oracle) (s : Settings) (a : String) (t : Token)
    (str : String) (n : Int)
    (hc : ∀ k, oracle (.tokenbalance t.contract a) k = .response (okDocStr str))
    (hp : pyInt str = some n) :
    getTokenBalanceOnAccount oracle s a t =
      .ok ⟨tokVal t n, s.enableAuthentication, 1⟩ := by
  have hne : str ≠ "" := toIntSome_ne_empty str n hp
  have hlr := loadRetry_first_success s.enableAuthentication
    (oracle (.tokenbalance t.contract a)) 5 (okDocStr str) "OK" (.rstr str)
    (by omega) (hc 0) rfl (by decide) (by decide) rfl (by simp [rTruthy, hne])
  simp only [getTokenBalanceOnAccount, hlr, tokBalance_ok str n t hne hp]

theorem tokensLoop_run (oracle : Oracle) (a : String) (strOf : Token → String)
    (nOf : Token → Int) :
    ∀ (ts : List Token) (s : Settings) (tbl : Table) (n : Nat),
      (∀ t ∈ ts, ∀ k, oracle (.tokenbalance t.contract a) k =
        .response (okDocStr (strOf t))) →
      (∀ t ∈ ts, pyInt (strOf t) = some (nOf t)) →
      tokensLoop oracle a ts s tbl n =
        .ok ⟨s, tsWrite a (fun t => tokVal t (nOf t)) ts tbl, n + ts.length⟩ := by
  intro ts
  induction ts with
  | nil => intro s tbl n _ _; rfl
  | cons t ts ih =>
    intro s tbl n hc hp
    simp only [tokensLoop]
    rw [getTok_const oracle s a t (strOf t) (nOf t) (hc t (by simp)) (hp t (by simp))]
    dsimp only
    have hseta : ({ s with enableAuthentication := s.enableAuthentication } :
        Settings) = s := rfl
    rw [hseta, ih s _ (n + 1) (fun t' ht' k => hc t' (by simp [ht']) k)
      fun t' ht' => hp t' (by simp [ht'])]
    simp only [Except.ok.injEq, RunResult.mk.injEq, tsWrite, List.length_cons,
      eq_self_iff_true, true_and]
    omega

theorem accountsLoop_run (oracle : Oracle) (ts : List Token)
    (strOf : Token → String → String) (nOf : Token → String → Int) :
    ∀ (accounts : List String) (s : Settings) (tbl : Table) (n : Nat),
      s.tokens = some ts →
      (∀ t ∈ ts, ∀ a ∈ accounts, ∀ k, oracle (.tokenbalance t.contract a) k =
        .response (okDocStr (strOf t a))) →
      (∀ t ∈ ts, ∀ a ∈ accounts, pyInt (strOf t a) = some (nOf t a)) →
      ∃ m, accountsLoop oracle accounts s tbl n =
        .ok ⟨s, acWrite (fun t a => tokVal t (nOf t a)) ts accounts tbl, m⟩ := by
  intro accounts
  induction accounts with
  | nil => intro s tbl n _ _ _; exact ⟨n, rfl⟩
  | cons a rest ih =>
    intro s tbl n hst hc hp
    simp only [accountsLoop, hst]
    rw [tokensLoop_run oracle a (fun t => strOf t a) (fun t => nOf t a) ts s tbl n
      (fun t ht k => hc t ht a (by simp) k) fun t ht => hp t ht a (by simp)]
    dsimp only
    obtain ⟨m, hm⟩ := ih s
      (tsWrite a (fun t => tokVal t (nOf t a)) ts tbl) (n + ts.length) hst
      (fun t ht a' ha' k => hc t ht a' (by simp [ha']) k)
      fun t ht a' ha' => hp t ht a' (by simp [ha'])
    exact ⟨m, by rw [hm]; rfl⟩

theorem tsWrite_alookup_ne (a : String) (valOf : Token → ℚ) (ts : List Token)
    (tbl : Table) (sym : String) (h : sym ∉ ts.map Token.short) :
    alookup (tsWrite a valOf ts tbl) sym = alookup tbl sym := by
  induction ts generalizing tbl with
  | nil => rfl
  | cons t ts ih =>
    simp only [List.map_cons, List.mem_cons, not_or] at h
    rw [tsWrite, ih _ h.2, alookup_writeBal_ne _ _ _ _ _ (Ne.symm h.1),
      alookup_ensureSym_ne _ _ _ (Ne.symm h.1)]

theorem tsWrite_lookup2_acct_ne (a : String) (valOf : Token → ℚ) (ts : List Token)
    (tbl : Table) (sym a' : String) (ha : a' ≠ a) :
    lookup2 (tsWrite a valOf ts tbl) sym a' = lookup2 tbl sym a' := by
  induction ts generalizing tbl with
  | nil => rfl
  | cons t ts ih =>
    rw [tsWrite, ih]
    by_cases hsym : sym = t.short
    · subst hsym
      rw [lookup2_writeBal, if_neg (Ne.symm ha), lookup2_ensureSym]
    · have hal : alookup (writeBal (ensureSym tbl t.short) t.short a (valOf t)) sym
          = alookup tbl sym := by
        rw [alookup_writeBal_ne _ _ _ _ _ fun h => hsym h.symm,
          alookup_ensureSym_ne _ _ _ fun h => hsym h.symm]
      exact lookup2_congr _ _ _ _ hal

theorem tsWrite_lookup2_self (a : String) (valOf : Token → ℚ) (ts : List Token)
    (tbl : Table) (hnd : (ts.map Token.short).Nodup) (t : Token) (ht : t ∈ ts) :
    lookup2 (tsWrite a valOf ts tbl) t.short a = some (valOf t) := by
  induction ts generalizing tbl with
  | nil => cases ht
  | cons x xs ih =>
    simp only [List.map_cons, List.nodup_cons] at hnd
    rcases List.mem_cons.mp ht with hex | hex
    · subst hex
      rw [tsWrite,
        lookup2_congr _ _ _ _ (tsWrite_alookup_ne a valOf xs _ t.short hnd.1),
        lookup2_writeBal, if_pos rfl]
    · rw [tsWrite]
      exact ih _ hnd.2 hex

theorem tsWrite_id (a : String) (valOf : Token → ℚ) (ts : List Token) (tbl : Table)
    (h : ∀ t ∈ ts, lookup2 tbl t.short a = some (valOf t)) :
    tsWrite a valOf ts tbl = tbl := by
  induction ts with
  | nil => rfl
  | cons t ts ih =>
    have h0 := h t (List.mem_cons_self t ts)
    rw [tsWrite, ensureSym_of_truthy _ _ (subTruthy_of_lookup2 _ _ _ _ h0),
      writeBal_id _ _ _ _ h0, ih fun x hx => h x (List.mem_cons_of_mem t hx)]

theorem acW_alookup_ne (valOf : Token → String → ℚ) (ts : List Token)
    (accounts : List String) (tbl : Table) (sym : String)
    (h : sym ∉ ts.map Token.short) :
    alookup (acWrite valOf ts accounts tbl) sym = alookup tbl sym := by
  induction accounts generalizing tbl with
  | nil => rfl
  | cons a rest ih => rw [acWrite, ih, tsWrite_alookup_ne _ _ _ _ _ h]

theorem acW_frame (valOf : Token → String → ℚ) (ts : List Token)
    (accounts : List String) (tbl : Table) (sym a : String) (ha : a ∉ accounts) :
    lookup2 (acWrite valOf ts accounts tbl) sym a = lookup2 tbl sym a := by
  induction accounts generalizing tbl with
  | nil => rfl
  | cons a0 rest ih =>
    simp only [List.mem_cons, not_or] at ha
    rw [acWrite, ih _ ha.2, tsWrite_lookup2_acct_ne _ _ _ _ _ _ ha.1]

theorem acW_lookup2 (valOf : Token → String → ℚ) (ts : List Token)
    (accounts : List String) (tbl : Table)
    (hnd : (ts.map Token.short).Nodup) (t : Token) (ht : t ∈ ts)
    (a : String) (ha : a ∈ accounts) :
    lookup2 (acWrite valOf ts accounts tbl) t.short a = some (valOf t a) := by
  induction accounts generalizing tbl with
  | nil => cases ha
  | cons a0 rest ih =>
    by_cases har : a ∈ rest
    · rw [acWrite]
      exact ih _ har
    · have ha0 : a = a0 := by
        rcases List.mem_cons.mp ha with h | h
        · exact h
        · exact absurd h har
      subst ha0
      rw [acWrite, acW_frame _ _ _ _ _ _ har,
        tsWrite_lookup2_self _ _ _ _ hnd t ht]

theorem acW_id (valOf : Token → String → ℚ) (ts : List Token)
    (accounts : List String) (tbl : Table)
    (h : ∀ t ∈ ts, ∀ a ∈ accounts, lookup2 tbl t.short a = some (valOf t a)) :
    acWrite valOf ts accounts tbl = tbl := by
  induction accounts with
  | nil => rfl
  | cons a0 rest ih =>
    rw [acWrite,
      tsWrite_id _ _ _ _ fun t ht => h t ht a0 (List.mem_cons_self a0 rest),
      ih fun t ht a ha => h t ht a (List.mem_cons_of_mem a0 ha)]

/-- One full `retrieve_accounts` run under an always-success network is a
success and transforms the table exactly as `runTable` says. -/
theorem retrieveAccounts_run (oracle : Oracle) (ak : Option String) (u : String)
    (ad : Option (List String)) (ts : List Token) (es : List AccEntry)
    (strOf : Token → String → String) (nOf : Token → String → Int)
    (hb : ∀ k, oracle (.balancemulti ad) k =
      .response ⟨some "OK", some (.rlist es), false⟩)
    (hes : es ≠ [])
    (hc : ∀ t ∈ ts, ∀ a k, oracle (.tokenbalance t.contract a) k =
      .response (okDocStr (strOf t a)))
    (hp : ∀ t ∈ ts, ∀ a, pyInt (strOf t a) = some (nOf t a))
    (T : Table) :
    ∃ n, retrieveAccounts oracle ⟨ak, u, ad, some ts, true⟩ T =
      .ok ⟨⟨ak, u, ad, some ts, true⟩,
        runTable (fun t a => tokVal t (nOf t a)) ts es T, n⟩ := by
  have hie : es.isEmpty = false := by
    cases es with
    | nil => exact absurd rfl hes
    | cons x xs => rfl
  have hblr := loadRetry_first_success true (oracle (.balancemulti ad)) 5 _ "OK"
    (.rlist es) (by omega) (hb 0) rfl (by decide) (by decide) rfl
    (by simpa [rTruthy] using hes)
  by_cases hts : ts.isEmpty
  · refine ⟨1, ?_⟩
    simp only [retrieveAccounts, if_true, hblr, nativeWrite, hie,
      Bool.false_eq_true, if_false, runTable, hts]
  · obtain ⟨m, hm⟩ := accountsLoop_run oracle ts strOf nOf
      (((alookup (ensureSym (es.foldl natOne (ensureSym T "ETH")) "ETH") "ETH").getD
        []).map Prod.fst)
      ⟨ak, u, ad, some ts, true⟩
      (ensureSym (es.foldl natOne (ensureSym T "ETH")) "ETH") 0 rfl
      (fun t ht a _ k => hc t ht a k) fun t ht a _ => hp t ht a
    refine ⟨1 + m, ?_⟩
    cases ts with
    | nil => exact absurd rfl hts
    | cons t0 ts' =>
      simp only [retrieveAccounts, if_true, hblr, nativeWrite, hie,
        Bool.false_eq_true, if_false, List.isEmpty_cons, retrieveTokens, hm,
        runTable]

/-- Applying the run transformation twice gives the same table as applying
it once: the second run writes only values that are already present. -/
theorem runTable_idem (valOf : Token → String → ℚ) (ts : List Token)
    (es : List AccEntry) (tbl : Table)
    (hes : es ≠ []) (hnd : (es.map AccEntry.account).Nodup)
    (hshort : "ETH" ∉ ts.map Token.short)
    (hndts : (ts.map Token.short).Nodup) :
    runTable valOf ts es (runTable valOf ts es tbl) = runTable valOf ts es tbl := by
  obtain ⟨e0, he0⟩ := List.exists_mem_of_ne_nil es hes
  have hAmem : ∀ e ∈ es, lookup2 (es.foldl natOne (ensureSym tbl "ETH")) "ETH"
      e.account = some ((e.balance : ℚ) / 1000000000000000000) :=
    fun e he => natFold_lookup2_mem es _ hnd e he
  have hAt : subTruthy (alookup (es.foldl natOne (ensureSym tbl "ETH")) "ETH") =
      true := subTruthy_of_lookup2 _ _ _ _ (hAmem e0 he0)
  by_cases hts : ts.isEmpty
  · simp only [runTable, hts, if_true]
    rw [ensureSym_of_truthy _ _ hAt, natFold_id es _ hAmem]
  · simp only [runTable, hts, Bool.false_eq_true, if_false,
      ensureSym_of_truthy _ _ hAt]
    set tblA := es.foldl natOne (ensureSym tbl "ETH") with hA
    set A1 := ((alookup tblA "ETH").getD []).map Prod.fst with hA1
    set W := acWrite valOf ts A1 tblA with hW
    have hWeth : alookup W "ETH" = alookup tblA "ETH" :=
      acW_alookup_ne _ _ _ _ _ hshort
    have hWmem : ∀ e ∈ es, lookup2 W "ETH" e.account =
        some ((e.balance : ℚ) / 1000000000000000000) :=
      fun e he => (lookup2_congr _ _ _ _ hWeth).trans (hAmem e he)
    have hWt : subTruthy (alookup W "ETH") = true := by rw [hWeth]; exact hAt
    have h2 : es.foldl natOne (ensureSym W "ETH") = W := by
      rw [ensureSym_of_truthy _ _ hWt]
      exact natFold_id es W hWmem
    rw [h2, ensureSym_of_truthy _ _ hWt, hWeth, ← hA1]
    exact acW_id valOf ts A1 W fun t ht a ha =>
      acW_lookup2 valOf ts A1 tblA hndts t ht a ha

end Lemmas

example :
    retrieveAccounts (fun _ _ => Attempt.response noMessageDoc) sampleSettings [] =
      .error "TypeError" := by decide

/-- Claim C10: for every sequence of per-attempt outcomes and every retry
budget, the `__load_retry` loop terminates after at most `retries + 1`
iterations (the supplied fuel is never exhausted): the attempt counter
increases on every iteration and the loop stops once it exceeds the
budget. -/
theorem loadRetry_terminates (resp : Nat → Attempt) (retries : Nat) (auth : Bool) :
    (loadRetry auth resp retries).iterations ≤ retries + 1 ∧
    (loadRetry auth resp retries).fuelOk = true := by
  obtain ⟨hA, hB⟩ :=
    go_bound resp retries ((retries + 1) + 1) 0 0 auth [] 0 (by omega) (by omega)
  exact ⟨by simpa using hB, hA⟩

/-- Claim C6: if every network attempt raises a transport failure, then
`__load_retry` with retries equal to 5 performs exactly 5 network
attempts, sleeps the fixed one-unit backoff between consecutive attempts,
and returns None (no data) without raising. -/
theorem loadRetry_transport_exhaustion (resp : Nat → Attempt) (auth : Bool)
    (h : ∀ k, resp k = .transportError) :
    loadRetry auth resp 5 =
      ⟨.pynone, 5, 6,
        [.netCall, .sleep1, .netCall, .sleep1, .netCall, .sleep1, .netCall, .sleep1,
          .netCall, .sleep1, .gaveUp], auth, true⟩ := by
  have hf : resp = fun _ => Attempt.transportError := funext h
  subst hf
  cases auth <;> decide

theorem loadRetry_transport_exhaustion_witness :
    (∀ k : Nat, (fun _ : Nat => Attempt.transportError) k = .transportError) ∧
    loadRetry true (fun _ : Nat => Attempt.transportError) 5 =
      ⟨.pynone, 5, 6,
        [.netCall, .sleep1, .netCall, .sleep1, .netCall, .sleep1, .netCall, .sleep1,
          .netCall, .sleep1, .gaveUp], true, true⟩ :=
  ⟨fun _ => rfl,
    loadRetry_transport_exhaustion (fun _ => Attempt.transportError) true fun _ => rfl⟩

/-- Claim C5 is wrong about the code: on a truthy response document whose
`message` key is absent, the check `NOTOK in data.get('message')` becomes
a membership test on None and raises TypeError, which escapes
`__load_retry` and aborts the whole `retrieve_accounts` cycle, instead of
being absorbed as "no data". -/
theorem loadRetry_raises_on_missing_message :
    (loadRetry true (fun _ => Attempt.response noMessageDoc) 5).data =
      .raised "TypeError" ∧
    retrieveAccounts (fun _ _ => Attempt.response noMessageDoc) sampleSettings [] =
      .error "TypeError" :=
  ⟨by decide, by decide⟩

/-- Claim C4 is wrong about the code: a well-formed document with message
OK and an empty result does not send the loop to the next attempt until
the budget is exhausted — `retry` is cleared after any completed request,
so the loop ends after one single attempt and returns the raw document. -/
theorem loadRetry_no_retry_on_unrecognized_doc :
    (loadRetry true (fun _ => Attempt.response okEmptyDoc) 5).attempts = 1 ∧
    (loadRetry true (fun _ => Attempt.response okEmptyDoc) 5).attempts ≠ 5 ∧
    (loadRetry true (fun _ => Attempt.response okEmptyDoc) 5).data = .pydoc okEmptyDoc :=
  ⟨by decide, by decide, by decide⟩

/-- Claim C4, amended: any truthy response document whose message neither
contains NOTOK nor satisfies the success condition ends the retry loop
right after the attempt that produced it — one attempt consumed, no
backoff — and `__load_retry` returns the raw document itself. -/
theorem loadRetry_unrecognized_doc_returns_raw (auth : Bool) (resp : Nat → Attempt)
    (retries : Nat) (d : ApiDoc) (m : String)
    (hr1 : 1 ≤ retries) (h0 : resp 0 = .response d) (ht : d.truthy = true)
    (hm : d.message = some m) (hnotok : pyIn "NOTOK" m = false)
    (hns : ((m = "OK" || pyIn "OK-" m) && rTruthy d.result) = false) :
    loadRetry auth resp retries = ⟨.pydoc d, 1, 1, [.netCall], auth, true⟩ := by
  have hlt : ¬ (retries < 0 + 1) := by omega
  simp only [loadRetry, go, if_neg hlt, h0, ht, if_true, hm, hnotok,
    Bool.false_eq_true, if_false]
  cases hr : d.result with
  | none => rfl
  | some r =>
    rw [hr] at hns
    simp only [hns, Bool.false_eq_true, if_false]
    rfl

theorem loadRetry_unrecognized_doc_returns_raw_witness :
    (1 ≤ 5) ∧
    loadRetry true (fun _ => Attempt.response okEmptyDoc) 5 =
      ⟨.pydoc okEmptyDoc, 1, 1, [.netCall], true, true⟩ :=
  ⟨by omega,
    loadRetry_unrecognized_doc_returns_raw true (fun _ => Attempt.response okEmptyDoc)
      5 okEmptyDoc "OK" (by omega) rfl (by decide) (by decide) (by decide) (by decide)⟩

/-- Claim C2: once a call observes a NOTOK response whose result is the
literal string Invalid API Key, `enable_authentication` is set to disabled
after one attempt and the table is untouched; with the flag disabled, every
subsequent `retrieve_accounts()` call — any network, any table — performs
zero network calls, returns its table unmodified, and leaves the flag
disabled (nothing re-enables it). -/
theorem authentication_lockout (oracle oracle2 : Oracle) (s : Settings)
    (tbl tbl2 : Table)
    (hauth : s.enableAuthentication = true) (htoks : s.tokens = none)
    (hresp : ∀ k, oracle (.balancemulti s.addresses) k = .response authFailDoc) :
    retrieveAccounts oracle s tbl =
      .ok ⟨{ s with enableAuthentication := false }, tbl, 1⟩ ∧
    retrieveAccounts oracle2 { s with enableAuthentication := false } tbl2 =
      .ok ⟨{ s with enableAuthentication := false }, tbl2, 0⟩ := by
  have hf : oracle (.balancemulti s.addresses) = fun _ => Attempt.response authFailDoc :=
    funext hresp
  have hlr : loadRetry true (fun _ => Attempt.response authFailDoc) 5 =
      ⟨.pynone, 1, 1, [.netCall, .sleep1], false, true⟩ := by decide
  constructor
  · simp [retrieveAccounts, hauth, hf, hlr, nativeWrite, htoks]
  · simp [retrieveAccounts]

theorem authentication_lockout_witness :
    (sampleSettings.enableAuthentication = true) ∧ (sampleSettings.tokens = none) ∧
    (retrieveAccounts (fun _ _ => Attempt.response authFailDoc) sampleSettings [] =
        .ok ⟨{ sampleSettings with enableAuthentication := false }, [], 1⟩ ∧
      retrieveAccounts (fun _ _ => Attempt.response authFailDoc)
          { sampleSettings with enableAuthentication := false } [] =
        .ok ⟨{ sampleSettings with enableAuthentication := false }, [], 0⟩) :=
  ⟨rfl, rfl,
    authentication_lockout _ _ sampleSettings [] [] rfl rfl fun _ => rfl⟩

/-- The normalization in `_get_token_balance_on_account` treats a negative
decimals value exactly like 18: the Python default branch is taken. -/
theorem tokBalance_decimals_default (data : LoadRes) (c sy : String) (d' : Int)
    (hd' : d' < 0) :
    tokBalance data ⟨c, some d', sy⟩ = tokBalance data ⟨c, some 18, sy⟩ := by
  cases data with
  | raised e => rfl
  | pynone => rfl
  | pydoc d => rfl
  | pyres r =>
    cases r with
    | rlist es => rfl
    | rstr s =>
      by_cases hse : s = ""
      · simp [tokBalance, hse]
      · simp only [tokBalance, hse, if_false]
        cases hx : pyInt s with
        | none => rfl
        | some n =>
          have h1 : ¬ ((0 : Int) ≤ d') := by omega
          simp [Option.getD, h1]

/-- The normalization treats an absent decimals key exactly like 18: the
Python `get` default is -1, which selects the default branch. -/
theorem tokBalance_decimals_absent (data : LoadRes) (c sy : String) :
    tokBalance data ⟨c, none, sy⟩ = tokBalance data ⟨c, some 18, sy⟩ := by
  cases data with
  | raised e => rfl
  | pynone => rfl
  | pydoc d => rfl
  | pyres r =>
    cases r with
    | rlist es => rfl
    | rstr s =>
      by_cases hse : s = ""
      · simp [tokBalance, hse]
      · simp only [tokBalance, hse, if_false]
        cases hx : pyInt s with
        | none => rfl
        | some n => simp [Option.getD]

/-- Two tokens with the same contract address whose normalizations agree on
every payload give the same `_get_token_balance_on_account` result. -/
theorem getTok_congr (oracle : Oracle) (s : Settings) (account : String)
    (t1 t2 : Token) (hc : t1.contract = t2.contract)
    (h : ∀ data, tokBalance data t1 = tokBalance data t2) :
    getTokenBalanceOnAccount oracle s account t1 =
      getTokenBalanceOnAccount oracle s account t2 := by
  simp only [getTokenBalanceOnAccount, hc, h]

/-- Claim C7: with a loaded decimal string denoting the non-negative
integer r and a decimals value d between 0 and 18,
`_get_token_balance_on_account` returns r / 10^d (for d = 0 this is the
raw integer unchanged); a negative or absent decimals value behaves
exactly like decimals = 18; and a raw amount of zero or less, as well as
an error payload (no data), yields exactly 0. -/
theorem tokenBalance_normalization (oracle : Oracle) (s : Settings)
    (account contract sy str : String) (d : Int) (r : Nat)
    (hload : (loadRetry s.enableAuthentication
        (oracle (.tokenbalance contract account)) 5).data = .pyres (.rstr str))
    (hs : pyInt str = some (r : Int)) (hd0 : 0 ≤ d) (hd18 : d ≤ 18) :
    (getTokenBalanceOnAccount oracle s account ⟨contract, some d, sy⟩ =
      .ok ⟨(r : ℚ) / 10 ^ d.toNat,
        (loadRetry s.enableAuthentication
          (oracle (.tokenbalance contract account)) 5).enableAuthentication,
        (loadRetry s.enableAuthentication
          (oracle (.tokenbalance contract account)) 5).attempts⟩) ∧
    (∀ d' : Int, d' < 0 →
      getTokenBalanceOnAccount oracle s account ⟨contract, some d', sy⟩ =
        getTokenBalanceOnAccount oracle s account ⟨contract, some 18, sy⟩) ∧
    (getTokenBalanceOnAccount oracle s account ⟨contract, none, sy⟩ =
      getTokenBalanceOnAccount oracle s account ⟨contract, some 18, sy⟩) ∧
    (∀ (str2 : String) (n : Int), pyInt str2 = some n → n ≤ 0 →
      tokBalance (.pyres (.rstr str2)) ⟨contract, some d, sy⟩ = .ok 0) ∧
    (tokBalance .pynone ⟨contract, some d, sy⟩ = .ok 0) := by
  refine ⟨?_, ?_, ?_, ?_, rfl⟩
  · have hne : str ≠ "" := toIntSome_ne_empty str (r : Int) hs
    simp only [getTokenBalanceOnAccount, hload, tokBalance, hne, if_false, hs,
      Option.getD, hd0, if_true]
    rcases Nat.eq_zero_or_pos r with hr | hr
    · subst hr
      simp
    · have hrpos : (0 : Int) < (r : Int) := by exact_mod_cast hr
      simp only [hrpos, if_true]
      rcases eq_or_lt_of_le hd0 with hdz | hdpos
      · rw [← hdz]
        norm_num
      · simp [hdpos, Int.toNat_of_nonneg hd0]
  · intro d' hd'
    exact getTok_congr oracle s account _ _ rfl
      fun data => tokBalance_decimals_default data contract sy d' hd'
  · exact getTok_congr oracle s account _ _ rfl
      fun data => tokBalance_decimals_absent data contract sy
  · intro str2 n hs2 hn
    have hne2 : str2 ≠ "" := toIntSome_ne_empty str2 n hs2
    have hnp : ¬ ((0 : Int) < n) := by omega
    simp [tokBalance, hne2, hs2, hnp]

theorem tokenBalance_normalization_witness :
    (pyInt "5000000" = some ((5000000 : Nat) : Int)) ∧
    ((0 : Int) ≤ 6) ∧ ((6 : Int) ≤ 18) ∧
    getTokenBalanceOnAccount (fun _ _ => Attempt.response (okDocStr "5000000"))
        sampleSettings "0xA" ⟨"0xT", some 6, "USDC"⟩ =
      .ok ⟨((5000000 : Nat) : ℚ) / 10 ^ ((6 : Int)).toNat, true, 1⟩ :=
  ⟨by decide, by decide, by decide,
    (tokenBalance_normalization (fun _ _ => Attempt.response (okDocStr "5000000"))
      sampleSettings "0xA" "0xT" "USDC" "5000000" 6 5000000
      (by decide) (by decide) (by decide) (by decide)).1⟩

/-- Claim C3 is wrong about the code: the balance table is shared between
connector instances.  `_accounts` is a class attribute of `Connector`
mutated in place and never shadowed by an instance assignment, so after
instance A retrieves balances, instance B's `get_accounts()` exposes A's
data: here B's view changes from the empty table to A's ETH balance. -/
theorem crossInstance_shared_accounts :
    TwoConnectors.retrieveAccountsA c3Oracle c3World =
      .ok ⟨[("ETH", [("0xA", ((3000000000000000000 : Int) : ℚ) / 1000000000000000000)])],
        c3SettingsA, c3SettingsB⟩ ∧
    TwoConnectors.getAccountsB
        ⟨[("ETH", [("0xA", ((3000000000000000000 : Int) : ℚ) / 1000000000000000000)])],
          c3SettingsA, c3SettingsB⟩ ≠
      TwoConnectors.getAccountsB c3World :=
  ⟨rfl, by decide⟩

/-- Claim C8 is wrong about the code on one point: NOTOK takes precedence
over the success test.  A response whose message contains the substring
OK- and carries a non-empty result list is not a success when the message
also contains NOTOK — the NOTOK branch retries the call to exhaustion and
`retrieve_accounts` writes nothing. -/
theorem balancemulti_okdash_notok_precedence :
    pyIn "OK-" "NOTOK-x" = true ∧
    rTruthy notokDashDoc.result = true ∧
    retrieveAccounts (fun _ _ => Attempt.response notokDashDoc) sampleSettings [] =
      .ok ⟨sampleSettings, [], 5⟩ :=
  ⟨by decide, by decide, by decide⟩

/-- Claim C8, amended with the NOTOK precedence: when the balancemulti
call returns a document whose message equals OK or contains OK- (and does
not contain NOTOK) with a non-empty result list, the call succeeds after
one attempt, and `retrieve_accounts` writes balance divided by 10^18 for
every returned entry under the ETH symbol — overwriting any prior value
for those accounts — while entries of other accounts and of other symbols
are unchanged. -/
theorem retrieveAccounts_success_updates_table (oracle : Oracle) (s : Settings)
    (tbl : Table) (m : String) (es : List AccEntry)
    (hauth : s.enableAuthentication = true) (htoks : s.tokens = none)
    (h0 : oracle (.balancemulti s.addresses) 0 =
      .response ⟨some m, some (.rlist es), false⟩)
    (hok : (decide (m = "OK") || pyIn "OK-" m) = true)
    (hnotok : pyIn "NOTOK" m = false)
    (hes : es ≠ []) (hnd : (es.map AccEntry.account).Nodup) :
    ∃ tbl', retrieveAccounts oracle s tbl = .ok ⟨s, tbl', 1⟩ ∧
      (∀ e ∈ es, lookup2 tbl' "ETH" e.account =
        some ((e.balance : ℚ) / 1000000000000000000)) ∧
      (∀ a, a ∉ es.map AccEntry.account →
        lookup2 tbl' "ETH" a = lookup2 tbl "ETH" a) ∧
      (∀ sym, sym ≠ "ETH" → alookup tbl' sym = alookup tbl sym) := by
  obtain ⟨ak, u, ad, tk, ea⟩ := s
  dsimp only at hauth htoks h0
  subst hauth
  subst htoks
  have hlr := loadRetry_first_success true
    (oracle (.balancemulti ad)) 5 _ m (.rlist es) (by omega) h0 rfl hnotok hok
    rfl (by simpa [rTruthy] using hes)
  have hie : es.isEmpty = false := by
    cases es with
    | nil => exact absurd rfl hes
    | cons x xs => rfl
  refine ⟨es.foldl natOne (ensureSym tbl "ETH"), ?_, ?_, ?_, ?_⟩
  · simp only [retrieveAccounts, if_true, hlr, nativeWrite, hie,
      Bool.false_eq_true, if_false]
  · intro e he
    rw [natFold_lookup2_mem es _ hnd e he]
  · intro a ha
    rw [natFold_lookup2_notmem es _ a ha, lookup2_ensureSym]
  · intro sym hsym
    rw [natFold_alookup_ne es _ sym hsym,
      alookup_ensureSym_ne tbl "ETH" sym (Ne.symm hsym)]

theorem retrieveAccounts_success_updates_table_witness :
    (sampleSettings.enableAuthentication = true) ∧ (sampleSettings.tokens = none) ∧
    ((fun (_ : Request) (_ : Nat) =>
        Attempt.response (okDocList [⟨"0xA", 2000000000000000000⟩, ⟨"0xB", 0⟩]))
      (.balancemulti sampleSettings.addresses) 0 =
      .response ⟨some "OK", some (.rlist [⟨"0xA", 2000000000000000000⟩, ⟨"0xB", 0⟩]),
        false⟩) ∧
    (([⟨"0xA", 2000000000000000000⟩, ⟨"0xB", 0⟩] : List AccEntry) ≠ []) ∧
    (∃ tbl', retrieveAccounts
        (fun _ _ => Attempt.response
          (okDocList [⟨"0xA", 2000000000000000000⟩, ⟨"0xB", 0⟩]))
        sampleSettings [] = .ok ⟨sampleSettings, tbl', 1⟩ ∧
      (∀ e ∈ ([⟨"0xA", 2000000000000000000⟩, ⟨"0xB", 0⟩] : List AccEntry),
        lookup2 tbl' "ETH" e.account =
          some ((e.balance : ℚ) / 1000000000000000000)) ∧
      (∀ a, a ∉ ([⟨"0xA", 2000000000000000000⟩, ⟨"0xB", 0⟩] : List AccEntry).map
          AccEntry.account →
        lookup2 tbl' "ETH" a = lookup2 ([] : Table) "ETH" a) ∧
      (∀ sym, sym ≠ "ETH" → alookup tbl' sym = alookup ([] : Table) sym)) :=
  ⟨rfl, rfl, rfl, by decide,
    retrieveAccounts_success_updates_table _ sampleSettings [] "OK"
      [⟨"0xA", 2000000000000000000⟩, ⟨"0xB", 0⟩]
      rfl rfl rfl (by decide) (by decide) (by decide) (by decide)⟩

/-- Claim C1 is wrong about the code: a failed token retrieval does not
leave the prior table value for that pair untouched.  `retrieve_tokens`
unconditionally writes the result of `_get_token_balance_on_account`,
which is 0.0 on failure, so a stale value of 5 is overwritten by the
sentinel 0. -/
theorem retrieveTokens_writes_sentinel_on_failure :
    retrieveTokens (fun _ _ => .transportError) c1Settings
        [("ETH", [("0xA", 2)]), ("USDC", [("0xA", 5)])] =
      .ok ⟨c1Settings, [("ETH", [("0xA", 2)]), ("USDC", [("0xA", 0)])], 5⟩ ∧
    lookup2 [("ETH", [("0xA", 2)]), ("USDC", [("0xA", 0)])] "USDC" "0xA" ≠ some 5 :=
  ⟨by decide, by decide⟩

/-- Claim C1, amended: in the isolation scenario — (USDC, 0xA) and
(TKB, 0xB) succeed while (USDC, 0xB) and (TKB, 0xA) always fail at
transport level — the failures do not abort the sibling calls, which all
run and record their correct normalized values, and the native ETH
entries are untouched; but each failed pair gets 0.0 written for it,
overwriting any prior value (here the stale pu), rather than being left
untouched. -/
theorem retrieveTokens_isolated_failure_writes_zero (pa pb pu : ℚ) :
    retrieveTokens c1Oracle c1Settings2
        [("ETH", [("0xA", pa), ("0xB", pb)]), ("USDC", [("0xB", pu)])] =
      .ok ⟨c1Settings2,
        [("ETH", [("0xA", pa), ("0xB", pb)]),
          ("USDC", [("0xB", 0), ("0xA", ((5000000 : Int) : ℚ) / 10 ^ (6 : Nat))]),
          ("TKB", [("0xA", 0), ("0xB", ((7000000 : Int) : ℚ) / 10 ^ (6 : Nat))])],
        12⟩ := by
  rfl

/-- Claim C9: with an API client that always returns the same Success
payloads — every balancemulti attempt a fixed non-empty entry list with
distinct accounts, every token attempt a fixed parseable amount string —
and distinctly named configured tokens none of which is named ETH,
calling `retrieve_accounts()` twice in succession yields a balance table
after the second call identical to the table after the first call. -/
theorem retrieveAccounts_idempotent (oracle : Oracle) (s : Settings) (tbl : Table)
    (ts : List Token) (es : List AccEntry)
    (strOf : Token → String → String) (nOf : Token → String → Int)
    (hauth : s.enableAuthentication = true)
    (htoks : s.tokens = some ts)
    (hshort : "ETH" ∉ ts.map Token.short)
    (hndts : (ts.map Token.short).Nodup)
    (hb : ∀ k, oracle (.balancemulti s.addresses) k =
      .response ⟨some "OK", some (.rlist es), false⟩)
    (hes : es ≠ []) (hnd : (es.map AccEntry.account).Nodup)
    (hc : ∀ t ∈ ts, ∀ a k, oracle (.tokenbalance t.contract a) k =
      .response (okDocStr (strOf t a)))
    (hp : ∀ t ∈ ts, ∀ a, pyInt (strOf t a) = some (nOf t a)) :
    ∃ t1 n1 n2, retrieveAccounts oracle s tbl = .ok ⟨s, t1, n1⟩ ∧
      retrieveAccounts oracle s t1 = .ok ⟨s, t1, n2⟩ := by
  obtain ⟨ak, u, ad, tk, ea⟩ := s
  dsimp only at hauth htoks hb
  subst hauth
  subst htoks
  obtain ⟨n1, h1⟩ := retrieveAccounts_run oracle ak u ad ts es strOf nOf hb hes hc hp
    tbl
  obtain ⟨n2, h2⟩ := retrieveAccounts_run oracle ak u ad ts es strOf nOf hb hes hc hp
    (runTable (fun t a => tokVal t (nOf t a)) ts es tbl)
  refine ⟨runTable (fun t a => tokVal t (nOf t a)) ts es tbl, n1, n2, h1, ?_⟩
  rw [h2, runTable_idem _ _ _ _ hes hnd hshort hndts]

theorem retrieveAccounts_idempotent_witness :
    (c1Settings.enableAuthentication = true) ∧
    (c1Settings.tokens = some [tokUSDC]) ∧
    ("ETH" ∉ [tokUSDC].map Token.short) ∧
    (([⟨"0xA", 2000000000000000000⟩] : List AccEntry) ≠ []) ∧
    (∃ t1 n1 n2, retrieveAccounts c9Oracle c1Settings [] = .ok ⟨c1Settings, t1, n1⟩ ∧
      retrieveAccounts c9Oracle c1Settings t1 = .ok ⟨c1Settings, t1, n2⟩) :=
  ⟨rfl, rfl, by decide, by decide,
    retrieveAccounts_idempotent c9Oracle c1Settings [] [tokUSDC]
      [⟨"0xA", 2000000000000000000⟩] (fun _ _ => "5000000") (fun _ _ => 5000000)
      rfl rfl (by decide) (by decide) (fun _ => rfl) (by decide) (by decide)
      (fun t _ a k => rfl) fun t _ a => by
        show pyInt "5000000" = some 5000000
        decide⟩

end CryptoExporter
